import Mathlib

/-!
Shallow embedding of the effect-timeline scheduler in
`src/react/components.tsx` of MathieuLoutre/bgio-effects.

The embedding models:
- the effect descriptors and queue partitions (`QueueState`),
- the `useRafLoop` tick callback (`tick`): active-queue scan, pending-queue
  scan, gated board-props update, stop condition, conditional queue publish,
- the `useEffect` board-props update handler (`handleUpdate`): same-id /
  no-effects branch and the batch-swap branch with its flush,
- a small system-step relation (`sysStep` / `sysRun`) combining both, and a
  per-batch tick run (`runTicks`) for trace-level invariants.

Times are modelled as rationals; the opaque `payload` and the opaque host
state snapshot (`boardProps`) are modelled as natural numbers, compared for
identity only, exactly as the source compares them.
-/

namespace BgioEffects

/-- The host-state snapshot (`boardProps` in the source), opaque, compared
for identity only. -/
abbrev Snapshot := Nat

/-- One effect descriptor as consumed by `components.tsx`: an effect-type
string, an opaque payload, a start offset `t` and an end offset `endT`
(seconds on the batch timeline). -/
structure Effect where
  type : String
  payload : Nat
  t : ℚ
  endT : ℚ
deriving DecidableEq, Repr

/-- The effect queue type (`Queue` in the source). -/
abbrev Queue := List Effect

/-- The envelope handed to subscribers by `emit`: the effect payload bundled
with the board props current at emission time (`InternalEffectShape`). -/
structure InternalEffectShape where
  payload : Nat
  boardProps : Snapshot
deriving DecidableEq, Repr

/-- Which of the two mitt emitters a notification went out on: the start
emitter (`emitter`) or the end emitter (`endEmitter`). -/
inductive Chan where
  | startCh : Chan
  | endCh : Chan
deriving DecidableEq, Repr

/-- A published notification: channel, effect-type key, and the envelope,
mirroring `emitter.emit(type, { payload, boardProps })`. -/
structure Event where
  chan : Chan
  type : String
  envelope : InternalEffectShape
deriving DecidableEq, Repr

/-- `emit(emitter, { type, payload }, boardProps)` from the source: bundle
payload and current board props into the effect envelope and publish it
under the effect's type key. -/
def emitEvent (c : Chan) (e : Effect) (boardProps : Snapshot) : Event :=
  { chan := c, type := e.type, envelope := { payload := e.payload, boardProps := boardProps } }

/-- The two queue partitions held in the `useRefState` cell: `queue` is the
pending queue, `activeQueue` the started-but-not-ended queue. -/
structure QueueState where
  queue : Queue
  activeQueue : Queue
deriving DecidableEq, Repr

/-- The payload of the effects plugin on the board props:
`effects.data = { id, queue, duration }`. -/
structure EffectsData where
  id : String
  queue : Queue
  duration : ℚ
deriving DecidableEq, Repr

/-- `const bgioStateT = updateStateAfterEffects ? duration : 0`. -/
def bgioStateT (updateStateAfterEffects : Bool) (duration : ℚ) : ℚ :=
  if updateStateAfterEffects then duration else 0

/-- The active-queue scan of the tick callback: walk `activeQueue`, keep the
effects with `endT > elapsedT` (first component, in order) and collect the
rest as ended (second component, in scan order). -/
def scanActive (elapsedT : ℚ) : Queue → Queue × Queue
  | [] => ([], [])
  | e :: es =>
    let r := scanActive elapsedT es
    if elapsedT < e.endT then (e :: r.1, r.2) else (r.1, e :: r.2)

/-- The pending-queue scan counter of the tick callback: the loop index `i`
at which the `for` loop over `queue` stops, i.e. the number of leading
effects visited before the first one with `t > elapsedT`. -/
def scanCount (elapsedT : ℚ) : Queue → Nat
  | [] => 0
  | e :: es => if elapsedT < e.t then 0 else scanCount elapsedT es + 1

/-- The outcome of one invocation of the `useRafLoop` callback. -/
structure TickOut where
  justEnded : Queue
  justStarted : Queue
  qs : QueueState
  published : Bool
  exposedProps : Snapshot
  stopped : Bool
  events : List Event
deriving DecidableEq, Repr

/-- One invocation of the `useRafLoop` callback, at the given elapsed
timeline seconds `elapsedT`.  `boardProps` is the latest host snapshot seen
by the closure, `exposed` is `state.bgioProps` (the snapshot currently given
to the board).  Mirrors `components.tsx` lines 145-194:
ends are emitted during the active scan, starts during the pending scan,
board props advance only when `elapsedT >= bgioStateT` and they differ,
`stopRaf` fires when `elapsedT > duration`, and `setQueueState` runs only
when `i > 0 || ended`. -/
def tick (updateStateAfterEffects : Bool) (duration elapsedT : ℚ)
    (boardProps exposed : Snapshot) (qs : QueueState) : TickOut :=
  let scans := scanActive elapsedT qs.activeQueue
  let endedList := scans.2
  let i := scanCount elapsedT qs.queue
  let startedList := qs.queue.take i
  let newActiveQueue := scans.1 ++ startedList
  let exposedProps :=
    if bgioStateT updateStateAfterEffects duration ≤ elapsedT ∧ boardProps ≠ exposed
    then boardProps else exposed
  { justEnded := endedList
    justStarted := startedList
    qs :=
      if 0 < i ∨ endedList ≠ [] then
        { queue := qs.queue.drop i, activeQueue := newActiveQueue }
      else qs
    published := decide (0 < i ∨ endedList ≠ [])
    exposedProps := exposedProps
    stopped := decide (duration < elapsedT)
    events :=
      endedList.map (fun x => emitEvent Chan.endCh x boardProps)
        ++ startedList.map (fun x => emitEvent Chan.startCh x boardProps) }

/-- `InteralState` (sic) from the source: the previously seen batch id, the
timeline start instant, and the board props currently exposed to the board. -/
structure InteralState where
  prevId : Option String
  startT : ℚ
  bgioProps : Snapshot
deriving DecidableEq, Repr

/-- The full provider-side mutable state: `state` (the `useState` cell),
`qState` (the `useRefState` cell) and whether the raf loop is active. -/
structure ProviderState where
  state : InteralState
  qState : QueueState
  rafActive : Bool
deriving DecidableEq, Repr

/-- The `useEffect` handler (`components.tsx` lines 199-245), run whenever a
host observation arrives.  `boardProps` is the new snapshot, `effects` the
effects plugin data on it (`none` when the plugin is absent/disabled).
Returns the new provider state and the list of notifications published
during the call (the batch-swap flush). -/
def handleUpdate (updateStateAfterEffects : Bool) (now : ℚ) (boardProps : Snapshot)
    (effects : Option EffectsData) (ps : ProviderState) : ProviderState × List Event :=
  let same : ProviderState × List Event :=
    if (updateStateAfterEffects = false ∨ ps.rafActive = false)
        ∧ boardProps ≠ ps.state.bgioProps then
      ({ ps with state := { ps.state with bgioProps := boardProps } }, [])
    else (ps, [])
  match effects with
  | none => same
  | some d =>
    if some d.id = ps.state.prevId then same
    else
      ({ state :=
          { prevId := some d.id, startT := now, bgioProps := ps.state.bgioProps },
         qState := { queue := d.queue, activeQueue := [] },
         rafActive := true },
       ps.qState.activeQueue.map (fun x => emitEvent Chan.endCh x boardProps))

/-- `(effects && effects.data.duration) || 0` from the source. -/
def durationOf : Option EffectsData → ℚ
  | none => 0
  | some d => d.duration

/-- `elapsedT = ((performance.now() - state.startT) / 1000) * speed`. -/
def elapsedAt (speed startT now : ℚ) : ℚ :=
  (now - startT) / 1000 * speed

/-- Whole-scheduler state: the latest host observation (board props and
effects plugin data) together with the provider state. -/
structure SysState where
  boardProps : Snapshot
  effects : Option EffectsData
  ps : ProviderState
deriving DecidableEq, Repr

/-- The two things that can happen to the scheduler: a raf tick at a wall
clock instant, or a new host observation. -/
inductive Action where
  | tickAt : ℚ → Action
  | observe : Snapshot → Option EffectsData → ℚ → Action
deriving DecidableEq, Repr

/-- One scheduler step.  A tick only runs its callback while the raf loop is
active; an observation re-renders with the new props and runs the
`useEffect` handler. -/
def sysStep (speed : ℚ) (updateStateAfterEffects : Bool) (s : SysState) :
    Action → SysState × List Event
  | Action.tickAt now =>
    if s.ps.rafActive then
      let out := tick updateStateAfterEffects (durationOf s.effects)
        (elapsedAt speed s.ps.state.startT now) s.boardProps s.ps.state.bgioProps s.ps.qState
      ({ s with ps :=
          { state := { s.ps.state with bgioProps := out.exposedProps }
            qState := out.qs
            rafActive := !out.stopped } },
       out.events)
    else (s, [])
  | Action.observe props effects now =>
    let r := handleUpdate updateStateAfterEffects now props effects s.ps
    ({ boardProps := props, effects := effects, ps := r.1 }, r.2)

/-- Run a list of scheduler steps, concatenating published notifications in
order. -/
def sysRun (speed : ℚ) (updateStateAfterEffects : Bool) (s : SysState) :
    List Action → SysState × List Event
  | [] => (s, [])
  | a :: as =>
    let r := sysStep speed updateStateAfterEffects s a
    let rest := sysRun speed updateStateAfterEffects r.1 as
    (rest.1, r.2 ++ rest.2)

/-- A run of tick callbacks at the given elapsed times, tracking the queue
state and accumulating all started and all ended effects in order.  The
queue components of `tick` do not depend on the board-props, gate or
duration arguments, so those are fixed at arbitrary values here. -/
def runTicks (qs : QueueState) : List ℚ → QueueState × Queue × Queue
  | [] => (qs, [], [])
  | e :: es =>
    let out := tick false 0 e 0 0 qs
    let rest := runTicks out.qs es
    (rest.1, out.justStarted ++ rest.2.1, out.justEnded ++ rest.2.2)

/-- The rational 1/2, built so that the kernel can evaluate comparisons on
it (`1/2` as a division would not reduce). -/
def half : ℚ := ⟨1, 2, by norm_num, by norm_num⟩

/-- The rational 3/2, built so that the kernel can evaluate comparisons on
it. -/
def threeHalves : ℚ := ⟨3, 2, by norm_num, by norm_num⟩

/-- First effect of the `b1` scenario: `{ type: "dmg", t: 0, endT: 1 }`. -/
def dmgFst : Effect := { type := "dmg", payload := 0, t := 0, endT := 1 }

/-- Second effect of the `b1` scenario: `{ type: "dmg", t: 0.5, endT: 1.5 }`. -/
def dmgSnd : Effect := { type := "dmg", payload := 1, t := half, endT := threeHalves }

/-- The `b1` batch of the scenario: two "dmg" effects, duration 1.5. -/
def b1 : EffectsData := { id := "b1", queue := [dmgFst, dmgSnd], duration := threeHalves }

/-- `b1` scenario, tick at elapsed 0 from the freshly installed queue. -/
def b1Tick0 : TickOut :=
  tick false threeHalves 0 0 0 { queue := b1.queue, activeQueue := [] }

/-- `b1` scenario, tick at elapsed 0.5. -/
def b1TickHalf : TickOut := tick false threeHalves half 0 0 b1Tick0.qs

/-- `b1` scenario, tick at elapsed 1. -/
def b1Tick1 : TickOut := tick false threeHalves 1 0 0 b1TickHalf.qs

/-- `b1` scenario, tick at elapsed 1.5 (exactly the batch duration). -/
def b1Tick32 : TickOut := tick false threeHalves threeHalves 0 0 b1Tick1.qs

/-- `b1` scenario, a later tick at elapsed 2 (past the batch duration). -/
def b1Tick2 : TickOut := tick false threeHalves 2 0 0 b1Tick32.qs

theorem half_eq : half = 1 / 2 := by
  rw [half, Rat.mk'_eq_divInt, Rat.divInt_eq_div]; norm_num

theorem threeHalves_eq : threeHalves = 3 / 2 := by
  rw [threeHalves, Rat.mk'_eq_divInt, Rat.divInt_eq_div]; norm_num

/-! ### Projection lemmas for `tick` -/

theorem tick_justEnded (u : Bool) (d e : ℚ) (bp ex : Snapshot) (qs : QueueState) :
    (tick u d e bp ex qs).justEnded = (scanActive e qs.activeQueue).2 := rfl

theorem tick_justStarted (u : Bool) (d e : ℚ) (bp ex : Snapshot) (qs : QueueState) :
    (tick u d e bp ex qs).justStarted = qs.queue.take (scanCount e qs.queue) := rfl

theorem tick_qs_eq (u : Bool) (d e : ℚ) (bp ex : Snapshot) (qs : QueueState) :
    (tick u d e bp ex qs).qs =
      if 0 < scanCount e qs.queue ∨ (scanActive e qs.activeQueue).2 ≠ [] then
        { queue := qs.queue.drop (scanCount e qs.queue),
          activeQueue :=
            (scanActive e qs.activeQueue).1 ++ qs.queue.take (scanCount e qs.queue) }
      else qs := rfl

theorem tick_published (u : Bool) (d e : ℚ) (bp ex : Snapshot) (qs : QueueState) :
    (tick u d e bp ex qs).published =
      decide (0 < scanCount e qs.queue ∨ (scanActive e qs.activeQueue).2 ≠ []) := rfl

theorem tick_exposedProps (u : Bool) (d e : ℚ) (bp ex : Snapshot) (qs : QueueState) :
    (tick u d e bp ex qs).exposedProps =
      if bgioStateT u d ≤ e ∧ bp ≠ ex then bp else ex := rfl

theorem tick_stopped (u : Bool) (d e : ℚ) (bp ex : Snapshot) (qs : QueueState) :
    (tick u d e bp ex qs).stopped = decide (d < e) := rfl

theorem tick_events (u : Bool) (d e : ℚ) (bp ex : Snapshot) (qs : QueueState) :
    (tick u d e bp ex qs).events =
      (tick u d e bp ex qs).justEnded.map (fun x => emitEvent Chan.endCh x bp)
        ++ (tick u d e bp ex qs).justStarted.map (fun x => emitEvent Chan.startCh x bp) := rfl

/-! ### Scan lemmas -/

theorem scanActive_fst (e : ℚ) (l : Queue) :
    (scanActive e l).1 = l.filter (fun x => decide (e < x.endT)) := by
  induction l with
  | nil => rfl
  | cons a as ih =>
    simp only [scanActive, List.filter_cons]
    by_cases h : e < a.endT
    · simp [h, ih]
    · simp [h, ih]

theorem scanActive_snd (e : ℚ) (l : Queue) :
    (scanActive e l).2 = l.filter (fun x => !decide (e < x.endT)) := by
  induction l with
  | nil => rfl
  | cons a as ih =>
    simp only [scanActive, List.filter_cons]
    by_cases h : e < a.endT
    · simp [h, ih]
    · simp [h, ih]

theorem scanActive_snd_le (e : ℚ) (l : Queue) :
    (scanActive e l).2 = l.filter (fun x => decide (x.endT ≤ e)) := by
  rw [scanActive_snd]
  refine List.filter_congr ?_
  intro a _
  rw [← decide_not, decide_eq_decide]
  exact not_lt

theorem scanCount_le_length (e : ℚ) (l : Queue) : scanCount e l ≤ l.length := by
  induction l with
  | nil => simp [scanCount]
  | cons a as ih =>
    simp only [scanCount, List.length_cons]
    split
    · omega
    · omega

theorem take_scanCount (e : ℚ) (l : Queue) :
    l.take (scanCount e l) = l.takeWhile (fun x => decide (x.t ≤ e)) := by
  induction l with
  | nil => rfl
  | cons a as ih =>
    simp only [scanCount, List.takeWhile_cons]
    by_cases h : e < a.t
    · simp [h, decide_eq_false (not_le.mpr h)]
    · simp [h, decide_eq_true (not_lt.mp h), ih]

theorem takeWhile_eq_filter_of_sorted (e : ℚ) (l : Queue)
    (h : l.Pairwise (fun a b => a.t ≤ b.t)) :
    l.takeWhile (fun x => decide (x.t ≤ e)) = l.filter (fun x => decide (x.t ≤ e)) := by
  induction l with
  | nil => rfl
  | cons a as ih =>
    rcases List.pairwise_cons.mp h with ⟨ha, has⟩
    by_cases hat : a.t ≤ e
    · simp [List.takeWhile_cons, List.filter_cons, hat, ih has]
    · have hall : as.filter (fun x => decide (x.t ≤ e)) = [] := by
        rw [List.filter_eq_nil_iff]
        intro x hx
        simp only [decide_eq_true_eq]
        exact fun hc => hat (le_trans (ha x hx) hc)
      simp [List.takeWhile_cons, List.filter_cons, hat, hall]

theorem scanActive_fst_of_snd_nil (e : ℚ) (l : Queue)
    (h : (scanActive e l).2 = []) : (scanActive e l).1 = l := by
  rw [scanActive_fst]
  rw [scanActive_snd, List.filter_eq_nil_iff] at h
  refine List.filter_eq_self.mpr ?_
  intro a ha
  have := h a ha
  simpa using this

/-! ### Claim theorems, part 1 -/

/-- **C1.** For every tick with elapsed time `e`, given that the pending
queue is sorted ascending by `t`, the per-tick advance removes from the
active queue exactly those effects with `endT ≤ e` (each emitted once on the
end channel), keeps the rest in the rebuilt active queue, moves from the
front of the pending queue to the active queue exactly those effects with
`t ≤ e` (each emitted once on the start channel), stops the pending scan at
the first effect with `t > e` (the `takeWhile` equation), and truncates the
pending queue by the scanned prefix. -/
theorem tick_advance_correct (u : Bool) (d e : ℚ) (bp ex : Snapshot) (qs : QueueState)
    (hs : qs.queue.Pairwise (fun a b => a.t ≤ b.t)) :
    (tick u d e bp ex qs).justEnded = qs.activeQueue.filter (fun x => decide (x.endT ≤ e)) ∧
    (tick u d e bp ex qs).justStarted = qs.queue.takeWhile (fun x => decide (x.t ≤ e)) ∧
    (tick u d e bp ex qs).justStarted = qs.queue.filter (fun x => decide (x.t ≤ e)) ∧
    (tick u d e bp ex qs).qs.activeQueue
      = qs.activeQueue.filter (fun x => decide (e < x.endT))
          ++ (tick u d e bp ex qs).justStarted ∧
    (tick u d e bp ex qs).qs.queue
      = qs.queue.drop (tick u d e bp ex qs).justStarted.length ∧
    (tick u d e bp ex qs).events
      = (tick u d e bp ex qs).justEnded.map (fun x => emitEvent Chan.endCh x bp)
          ++ (tick u d e bp ex qs).justStarted.map (fun x => emitEvent Chan.startCh x bp) := by
  have hended := scanActive_snd_le e qs.activeQueue
  have hkept := scanActive_fst e qs.activeQueue
  have htake := take_scanCount e qs.queue
  have hfilter := takeWhile_eq_filter_of_sorted e qs.queue hs
  have hlen : (qs.queue.take (scanCount e qs.queue)).length = scanCount e qs.queue := by
    rw [List.length_take]
    exact Nat.min_eq_left (scanCount_le_length e qs.queue)
  refine ⟨by rw [tick_justEnded, hended], by rw [tick_justStarted, htake],
    by rw [tick_justStarted, htake, hfilter], ?_, ?_, tick_events u d e bp ex qs⟩
  · rw [tick_qs_eq, tick_justStarted]
    split
    · rw [hkept]
    · rename_i hcond
      push_neg at hcond
      obtain ⟨hi, hnil⟩ := hcond
      have hi0 : scanCount e qs.queue = 0 := by omega
      rw [hi0, List.take_zero, List.append_nil, ← hkept,
        scanActive_fst_of_snd_nil e qs.activeQueue hnil]
  · rw [tick_qs_eq, tick_justStarted, hlen]
    split
    · rfl
    · rename_i hcond
      push_neg at hcond
      obtain ⟨hi, _⟩ := hcond
      have hi0 : scanCount e qs.queue = 0 := by omega
      rw [hi0, List.drop_zero]

/-- **C8.** A tick publishes an updated `QueueState` iff at least one effect
started or at least one effect ended during that tick; on an idle tick the
queue state is not republished (the queue cell is left untouched). -/
theorem tick_publish_iff (u : Bool) (d e : ℚ) (bp ex : Snapshot) (qs : QueueState) :
    ((tick u d e bp ex qs).published = true ↔
      (tick u d e bp ex qs).justStarted ≠ [] ∨ (tick u d e bp ex qs).justEnded ≠ []) ∧
    ((tick u d e bp ex qs).published = false → (tick u d e bp ex qs).qs = qs) := by
  have hstarted : (tick u d e bp ex qs).justStarted ≠ [] ↔ 0 < scanCount e qs.queue := by
    rw [tick_justStarted]
    constructor
    · intro h
      by_contra hc
      have h0 : scanCount e qs.queue = 0 := by omega
      exact h (by rw [h0, List.take_zero])
    · intro h hc
      rcases List.take_eq_nil_iff.mp hc with h0 | h0
      · omega
      · rw [h0] at h
        simp [scanCount] at h
  constructor
  · rw [tick_published, tick_justEnded, hstarted]
    simp
  · intro hpub
    rw [tick_published] at hpub
    simp only [decide_eq_false_iff_not] at hpub
    rw [tick_qs_eq, if_neg hpub]

/-- **C4.** In every tick, all end notifications are published before any
start notification of that tick (the event trace is the ended events
followed by the started events); an effect that starts in a given tick —
including a zero-duration one with `endT = t` — is placed in the rebuilt
active queue, and ends are detected only on the old active queue, so under
the pending/active partition invariant no effect both starts and ends in the
same tick. -/
theorem tick_ends_before_starts (u : Bool) (d e : ℚ) (bp ex : Snapshot) (qs : QueueState) :
    ((tick u d e bp ex qs).events
      = (tick u d e bp ex qs).justEnded.map (fun x => emitEvent Chan.endCh x bp)
          ++ (tick u d e bp ex qs).justStarted.map (fun x => emitEvent Chan.startCh x bp)) ∧
    (∀ x ∈ (tick u d e bp ex qs).justStarted, x ∈ (tick u d e bp ex qs).qs.activeQueue) ∧
    (∀ x ∈ (tick u d e bp ex qs).justStarted, x ∈ qs.queue) ∧
    (∀ x ∈ (tick u d e bp ex qs).justEnded, x ∈ qs.activeQueue) ∧
    (qs.queue.Disjoint qs.activeQueue →
      ∀ x ∈ (tick u d e bp ex qs).justStarted, x ∉ (tick u d e bp ex qs).justEnded) := by
  have hsub : ∀ x ∈ (tick u d e bp ex qs).justStarted, x ∈ qs.queue := by
    rw [tick_justStarted]
    intro x hx
    exact List.mem_of_mem_take hx
  have hend : ∀ x ∈ (tick u d e bp ex qs).justEnded, x ∈ qs.activeQueue := by
    rw [tick_justEnded, scanActive_snd_le]
    intro x hx
    exact List.mem_of_mem_filter hx
  refine ⟨tick_events u d e bp ex qs, ?_, hsub, hend, ?_⟩
  · intro x hx
    rw [tick_qs_eq]
    have h0 : 0 < scanCount e qs.queue := by
      by_contra hc
      have h0 : scanCount e qs.queue = 0 := by omega
      rw [tick_justStarted, h0, List.take_zero] at hx
      exact absurd hx (List.not_mem_nil x)
    rw [if_pos (Or.inl h0)]
    rw [tick_justStarted] at hx
    exact List.mem_append_right _ hx
  · intro hdisj x hx hxe
    exact hdisj (hsub x hx) (hend x hxe)

/-! ### Branch lemmas for `handleUpdate` -/

theorem handleUpdate_swap (u : Bool) (now : ℚ) (bp : Snapshot) (d : EffectsData)
    (ps : ProviderState) (hid : ¬ (some d.id = ps.state.prevId)) :
    handleUpdate u now bp (some d) ps =
      ({ state := { prevId := some d.id, startT := now, bgioProps := ps.state.bgioProps },
         qState := { queue := d.queue, activeQueue := [] },
         rafActive := true },
       ps.qState.activeQueue.map (fun x => emitEvent Chan.endCh x bp)) := by
  simp only [handleUpdate, if_neg hid]

theorem handleUpdate_same (u : Bool) (now : ℚ) (bp : Snapshot)
    (eff : Option EffectsData) (ps : ProviderState)
    (h : eff = none ∨ ∀ d, eff = some d → some d.id = ps.state.prevId) :
    handleUpdate u now bp eff ps =
      if (u = false ∨ ps.rafActive = false) ∧ bp ≠ ps.state.bgioProps then
        ({ ps with state := { ps.state with bgioProps := bp } }, [])
      else (ps, []) := by
  match eff with
  | none => rfl
  | some d =>
    have hd : some d.id = ps.state.prevId := by
      rcases h with h | h
      · exact absurd h (by simp)
      · exact h d rfl
    simp only [handleUpdate, if_pos hd]

/-! ### Claim theorems, part 2: the `useEffect` handler -/

/-- **C2.** Whenever a host observation carries an effects batch whose id
differs from the currently loaded one, every effect currently in the active
queue is published as an immediate end notification computed from the old
batch's active list and the new host snapshot; the new `QueueState` is
`{ pending: newBatch.queue, active: [] }`, the timeline start instant is
reset to `now`, and the raf driver is started. -/
theorem batch_swap_flush (u : Bool) (now : ℚ) (bp : Snapshot) (d : EffectsData)
    (ps : ProviderState) (hid : some d.id ≠ ps.state.prevId) :
    (handleUpdate u now bp (some d) ps).2
      = ps.qState.activeQueue.map (fun x => emitEvent Chan.endCh x bp) ∧
    (handleUpdate u now bp (some d) ps).1.qState
      = { queue := d.queue, activeQueue := [] } ∧
    (handleUpdate u now bp (some d) ps).1.state.startT = now ∧
    (handleUpdate u now bp (some d) ps).1.rafActive = true ∧
    (handleUpdate u now bp (some d) ps).1.state.prevId = some d.id := by
  rw [handleUpdate_swap u now bp d ps hid]
  exact ⟨rfl, rfl, rfl, rfl, rfl⟩

/-- **C7.** For every host observation in which the effects capability is
absent or the incoming batch id equals the currently loaded batch id, the
`QueueState`, the timeline start instant, the previous-id marker and the
raf-driver flag are unchanged and nothing is published; at most the gated
snapshot reference advances to the new board props. -/
theorem same_batch_no_change (u : Bool) (now : ℚ) (bp : Snapshot)
    (eff : Option EffectsData) (ps : ProviderState)
    (h : eff = none ∨ ∀ d, eff = some d → some d.id = ps.state.prevId) :
    (handleUpdate u now bp eff ps).1.qState = ps.qState ∧
    (handleUpdate u now bp eff ps).1.state.startT = ps.state.startT ∧
    (handleUpdate u now bp eff ps).1.state.prevId = ps.state.prevId ∧
    (handleUpdate u now bp eff ps).1.rafActive = ps.rafActive ∧
    (handleUpdate u now bp eff ps).2 = [] ∧
    ((handleUpdate u now bp eff ps).1.state.bgioProps = ps.state.bgioProps ∨
      (handleUpdate u now bp eff ps).1.state.bgioProps = bp) := by
  have hsame :
      ∀ r : ProviderState × List Event,
        r = (if (u = false ∨ ps.rafActive = false) ∧ bp ≠ ps.state.bgioProps then
              ({ ps with state := { ps.state with bgioProps := bp } }, ([] : List Event))
            else (ps, [])) →
        r.1.qState = ps.qState ∧ r.1.state.startT = ps.state.startT ∧
        r.1.state.prevId = ps.state.prevId ∧ r.1.rafActive = ps.rafActive ∧
        r.2 = [] ∧
        (r.1.state.bgioProps = ps.state.bgioProps ∨ r.1.state.bgioProps = bp) := by
    intro r hr
    by_cases hc : (u = false ∨ ps.rafActive = false) ∧ bp ≠ ps.state.bgioProps
    · rw [if_pos hc] at hr
      subst hr
      exact ⟨rfl, rfl, rfl, rfl, rfl, Or.inr rfl⟩
    · rw [if_neg hc] at hr
      subst hr
      exact ⟨rfl, rfl, rfl, rfl, rfl, Or.inl rfl⟩
  exact hsame _ (handleUpdate_same u now bp eff ps h)

/-- **C3.** With `updateStateAfterEffects = true`, a host snapshot that
differs from the exposed one is not exposed while the driver is running
until `elapsed ≥ duration`: a tick with `elapsedT < duration` leaves the
exposed snapshot unchanged, and the `useEffect` handler never changes the
exposed snapshot while the raf loop is active. -/
theorem defer_until_complete (d e now : ℚ) (bp ex : Snapshot) (qs : QueueState)
    (eff : Option EffectsData) (ps : ProviderState)
    (hlt : e < d) (hraf : ps.rafActive = true) :
    (tick true d e bp ex qs).exposedProps = ex ∧
    (handleUpdate true now bp eff ps).1.state.bgioProps = ps.state.bgioProps := by
  constructor
  · rw [tick_exposedProps, if_neg]
    rintro ⟨hle, -⟩
    simp only [bgioStateT, if_pos rfl] at hle
    exact absurd hle (not_le.mpr hlt)
  · have hcond : ¬ ((true = false ∨ ps.rafActive = false) ∧ bp ≠ ps.state.bgioProps) := by
      rw [hraf]
      simp
    match eff with
    | none =>
      rw [handleUpdate_same true now bp none ps (Or.inl rfl), if_neg hcond]
    | some dd =>
      by_cases hd : some dd.id = ps.state.prevId
      · rw [handleUpdate_same true now bp (some dd) ps
          (Or.inr fun d hdd => by cases hdd; exact hd), if_neg hcond]
      · rw [handleUpdate_swap true now bp dd ps hd]

/-! ### Conservation lemmas for tick runs -/

theorem tick_queue_split (u : Bool) (d e : ℚ) (bp ex : Snapshot) (qs : QueueState) :
    qs.queue = (tick u d e bp ex qs).justStarted ++ (tick u d e bp ex qs).qs.queue := by
  rw [tick_justStarted, tick_qs_eq]
  split
  · exact (List.take_append_drop _ _).symm
  · rename_i h
    push_neg at h
    have h0 : scanCount e qs.queue = 0 := by omega
    rw [h0, List.take_zero, List.nil_append]

theorem tick_active_perm (u : Bool) (d e : ℚ) (bp ex : Snapshot) (qs : QueueState) :
    ((tick u d e bp ex qs).justEnded ++ (tick u d e bp ex qs).qs.activeQueue).Perm
      (qs.activeQueue ++ (tick u d e bp ex qs).justStarted) := by
  rw [tick_justEnded, tick_justStarted, tick_qs_eq]
  split
  · rw [← List.append_assoc]
    refine List.Perm.append_right _ ?_
    have hperm :
        ((scanActive e qs.activeQueue).1 ++ (scanActive e qs.activeQueue).2).Perm
          qs.activeQueue := by
      rw [scanActive_fst, scanActive_snd]
      exact List.filter_append_perm _ _
    exact List.perm_append_comm.trans hperm
  · rename_i h
    push_neg at h
    obtain ⟨hi, hnil⟩ := h
    have h0 : scanCount e qs.queue = 0 := by omega
    rw [hnil, h0, List.take_zero, List.nil_append, List.append_nil]

theorem runTicks_queue_split (qs : QueueState) (es : List ℚ) :
    qs.queue = (runTicks qs es).2.1 ++ (runTicks qs es).1.queue := by
  induction es generalizing qs with
  | nil => rfl
  | cons e es ih =>
    simp only [runTicks]
    rw [List.append_assoc, ← ih (tick false 0 e 0 0 qs).qs]
    exact tick_queue_split false 0 e 0 0 qs

theorem runTicks_active_perm (qs : QueueState) (es : List ℚ) :
    ((runTicks qs es).2.2 ++ (runTicks qs es).1.activeQueue).Perm
      (qs.activeQueue ++ (runTicks qs es).2.1) := by
  induction es generalizing qs with
  | nil => simp [runTicks]
  | cons e es ih =>
    simp only [runTicks]
    have h1 :
        (((tick false 0 e 0 0 qs).justEnded ++ (runTicks (tick false 0 e 0 0 qs).qs es).2.2)
            ++ (runTicks (tick false 0 e 0 0 qs).qs es).1.activeQueue).Perm
          ((tick false 0 e 0 0 qs).justEnded
            ++ ((tick false 0 e 0 0 qs).qs.activeQueue
                ++ (runTicks (tick false 0 e 0 0 qs).qs es).2.1)) := by
      rw [List.append_assoc]
      exact (ih (tick false 0 e 0 0 qs).qs).append_left _
    have h2 :
        (((tick false 0 e 0 0 qs).justEnded ++ (tick false 0 e 0 0 qs).qs.activeQueue)
            ++ (runTicks (tick false 0 e 0 0 qs).qs es).2.1).Perm
          ((qs.activeQueue ++ (tick false 0 e 0 0 qs).justStarted)
            ++ (runTicks (tick false 0 e 0 0 qs).qs es).2.1) :=
      (tick_active_perm false 0 e 0 0 qs).append_right _
    refine h1.trans ?_
    rw [← List.append_assoc]
    refine h2.trans ?_
    rw [List.append_assoc]

/-! ### Claim theorems, part 3 -/

/-- **C5.** For every installed batch (queue `q` installed with an empty
active queue), across any sequence of ticks, every effect entry receives at
most one start notification, and at most one end notification even counting
the flush a subsequent batch swap would publish for the still-active
effects (the final active queue). -/
theorem no_double_fire (q : Queue) (x : Effect) (es : List ℚ)
    (h : q.count x ≤ 1) :
    ((runTicks { queue := q, activeQueue := [] } es).2.1).count x ≤ 1 ∧
    (((runTicks { queue := q, activeQueue := [] } es).2.2
        ++ (runTicks { queue := q, activeQueue := [] } es).1.activeQueue).count x ≤ 1) := by
  have hq := congrArg (List.count x) (runTicks_queue_split { queue := q, activeQueue := [] } es)
  rw [List.count_append] at hq
  simp only [QueueState.mk.injEq] at hq
  have hstarts : ((runTicks { queue := q, activeQueue := [] } es).2.1).count x ≤ 1 := by
    omega
  refine ⟨hstarts, ?_⟩
  have hperm := (runTicks_active_perm { queue := q, activeQueue := [] } es).count_eq x
  simp only [List.nil_append] at hperm
  omega

/-- **C9.** Every notification published by a tick or by a batch-swap flush
carries an envelope with the effect's payload and the host snapshot current
at emission time; that snapshot may differ from the snapshot currently
gated for display, as the final concrete instance shows (an effect starts
while the gate still exposes the old snapshot). -/
theorem envelope_carries_snapshot (u : Bool) (d e now : ℚ) (bp ex : Snapshot)
    (qs : QueueState) (eff : Option EffectsData) (ps : ProviderState) :
    (∀ ev ∈ (tick u d e bp ex qs).events,
      ev.envelope.boardProps = bp ∧
      ∃ x, (x ∈ qs.activeQueue ∨ x ∈ qs.queue) ∧
        ev.type = x.type ∧ ev.envelope.payload = x.payload) ∧
    (∀ ev ∈ (handleUpdate u now bp eff ps).2,
      ev.envelope.boardProps = bp ∧
      ∃ x, x ∈ ps.qState.activeQueue ∧ ev.type = x.type ∧ ev.envelope.payload = x.payload) ∧
    ((tick true 2 1 1 0 { queue := [⟨"a", 5, 0, 3⟩], activeQueue := [] }).events
        = [emitEvent Chan.startCh ⟨"a", 5, 0, 3⟩ 1] ∧
      (tick true 2 1 1 0 { queue := [⟨"a", 5, 0, 3⟩], activeQueue := [] }).exposedProps = 0) := by
  refine ⟨?_, ?_, by decide, by decide⟩
  · intro ev hev
    rw [tick_events] at hev
    rcases List.mem_append.mp hev with hev | hev
    · rcases List.mem_map.mp hev with ⟨x, hx, rfl⟩
      have hxa : x ∈ qs.activeQueue := by
        rw [tick_justEnded, scanActive_snd_le] at hx
        exact List.mem_of_mem_filter hx
      exact ⟨rfl, x, Or.inl hxa, rfl, rfl⟩
    · rcases List.mem_map.mp hev with ⟨x, hx, rfl⟩
      have hxq : x ∈ qs.queue := by
        rw [tick_justStarted] at hx
        exact List.mem_of_mem_take hx
      exact ⟨rfl, x, Or.inr hxq, rfl, rfl⟩
  · intro ev hev
    match eff with
    | none =>
      rw [handleUpdate_same u now bp none ps (Or.inl rfl)] at hev
      split at hev <;> exact absurd hev (List.not_mem_nil ev)
    | some dd =>
      by_cases hd : some dd.id = ps.state.prevId
      · rw [handleUpdate_same u now bp (some dd) ps
          (Or.inr fun d hdd => by cases hdd; exact hd)] at hev
        split at hev <;> exact absurd hev (List.not_mem_nil ev)
      · rw [handleUpdate_swap u now bp dd ps hd] at hev
        rcases List.mem_map.mp hev with ⟨x, hx, rfl⟩
        exact ⟨rfl, x, hx, rfl, rfl⟩

/-- When the raf loop is inactive, tick steps are no-ops: the state is
unchanged and nothing is published. -/
theorem sysRun_inactive (speed : ℚ) (u : Bool) (s : SysState) (acts : List Action)
    (hraf : s.ps.rafActive = false)
    (hacts : ∀ a ∈ acts, ∃ n, a = Action.tickAt n) :
    sysRun speed u s acts = (s, []) := by
  induction acts with
  | nil => rfl
  | cons a as ih =>
    obtain ⟨n, rfl⟩ := hacts a (List.mem_cons_self a as)
    have hstep : sysStep speed u s (Action.tickAt n) = (s, []) := by
      simp [sysStep, hraf]
    have hrest : sysRun speed u s as = (s, []) :=
      ih fun b hb => hacts b (List.mem_cons_of_mem _ hb)
    simp only [sysRun, hstep, hrest]
    rfl

/-- **C10.** After the driver stops because elapsed exceeded the batch
duration, any effect still in the active queue (one with `endT` greater
than the stopping tick's elapsed) stays in the active queue and is not
among that tick's end notifications; while the driver is inactive, any
number of further tick steps changes nothing and publishes nothing; such an
effect receives an end notification exactly when a later batch swap flushes
the active queue. -/
theorem stopped_effects_linger (u : Bool) (d e now : ℚ) (bp ex : Snapshot)
    (qs : QueueState) (speed : ℚ) (s : SysState) (acts : List Action)
    (dd : EffectsData) (ps : ProviderState)
    (hgt : d < e) (hraf : s.ps.rafActive = false)
    (hacts : ∀ a ∈ acts, ∃ n, a = Action.tickAt n)
    (hid : some dd.id ≠ ps.state.prevId) :
    (tick u d e bp ex qs).stopped = true ∧
    (∀ x ∈ qs.activeQueue, e < x.endT →
      x ∈ (tick u d e bp ex qs).qs.activeQueue ∧ x ∉ (tick u d e bp ex qs).justEnded) ∧
    sysRun speed u s acts = (s, []) ∧
    (handleUpdate u now bp (some dd) ps).2
      = ps.qState.activeQueue.map (fun x => emitEvent Chan.endCh x bp) := by
  refine ⟨by rw [tick_stopped]; exact decide_eq_true hgt, ?_,
    sysRun_inactive speed u s acts hraf hacts,
    by rw [handleUpdate_swap u now bp dd ps hid]⟩
  intro x hx hend
  have hkept : x ∈ (scanActive e qs.activeQueue).1 := by
    rw [scanActive_fst, List.mem_filter]
    exact ⟨hx, decide_eq_true hend⟩
  constructor
  · rw [tick_qs_eq]
    split
    · exact List.mem_append_left _ hkept
    · exact hx
  · rw [tick_justEnded, scanActive_snd_le]
    intro hc
    rcases List.mem_filter.mp hc with ⟨-, hc⟩
    rw [decide_eq_true_eq] at hc
    exact absurd hend (not_lt.mpr hc)

/-- **C6 counterexample.** In the `b1` scenario, the tick at elapsed 1.5
(exactly the batch duration) ends the second effect but does **not** stop
the driver: the stop condition in the source is strictly
`elapsedT > duration`, so `stopped = false` at `elapsedT = duration`. -/
theorem scenario_b1_no_stop_at_duration :
    b1Tick32.justEnded = [dmgSnd] ∧ b1Tick32.stopped = false := by
  decide

/-- **C6 (amended).** The `b1` scenario as the code plays it: at elapsed 0
only the first effect starts; at elapsed 0.5 the second starts; at elapsed
1.0 the first ends; at elapsed 1.5 the second ends but the driver keeps
running (stop requires `elapsed > duration`); the driver stops on a later
tick with elapsed > 1.5, which publishes nothing and leaves the queues
untouched. -/
theorem scenario_b1_playback :
    b1Tick0.justStarted = [dmgFst] ∧ b1Tick0.justEnded = [] ∧
    b1TickHalf.justStarted = [dmgSnd] ∧ b1TickHalf.justEnded = [] ∧
    b1Tick1.justEnded = [dmgFst] ∧ b1Tick1.justStarted = [] ∧
    b1Tick32.justEnded = [dmgSnd] ∧ b1Tick32.justStarted = [] ∧
    b1Tick32.stopped = false ∧
    b1Tick2.stopped = true ∧ b1Tick2.qs = b1Tick32.qs ∧ b1Tick2.events = [] := by
  decide

/-! ### Witnesses -/

/-- Witness for C1 at a concrete sorted queue: the pending queue
`[a(t=0), b(t=2)]` is sorted, and at elapsed 1 the ended list is exactly the
active effects with `endT ≤ 1`. -/
theorem tick_advance_correct_witness :
    ([⟨"a", 1, 0, 2⟩, ⟨"b", 2, 2, 3⟩] : Queue).Pairwise (fun a b => a.t ≤ b.t) ∧
    (tick false 2 1 7 0
        { queue := [⟨"a", 1, 0, 2⟩, ⟨"b", 2, 2, 3⟩],
          activeQueue := [⟨"c", 3, 0, 1⟩, ⟨"d", 4, 0, 3⟩] }).justEnded
      = ([⟨"c", 3, 0, 1⟩, ⟨"d", 4, 0, 3⟩] : Queue).filter (fun x => decide (x.endT ≤ 1)) :=
  ⟨by decide,
   (tick_advance_correct false 2 1 7 0
      { queue := [⟨"a", 1, 0, 2⟩, ⟨"b", 2, 2, 3⟩],
        activeQueue := [⟨"c", 3, 0, 1⟩, ⟨"d", 4, 0, 3⟩] } (by decide)).1⟩

/-- Witness for C2 at a concrete swap from batch "b1" to batch "b2" with one
still-active effect. -/
theorem batch_swap_flush_witness :
    (handleUpdate false 5 9 (some ⟨"b2", [], 1⟩)
        { state := { prevId := some "b1", startT := 0, bgioProps := 0 },
          qState := { queue := [], activeQueue := [⟨"c", 3, 0, 1⟩] },
          rafActive := true }).2
      = ([⟨"c", 3, 0, 1⟩] : Queue).map (fun x => emitEvent Chan.endCh x 9) :=
  (batch_swap_flush false 5 9 ⟨"b2", [], 1⟩
    { state := { prevId := some "b1", startT := 0, bgioProps := 0 },
      qState := { queue := [], activeQueue := [⟨"c", 3, 0, 1⟩] },
      rafActive := true } (by decide)).1

/-- Witness for C3: with deferral on, duration 2 and a snapshot change to 1
at elapsed 1, the tick leaves the exposed snapshot at 0. -/
theorem defer_until_complete_witness :
    ((1 : ℚ) < 2) ∧
    (tick true 2 1 1 0 { queue := [], activeQueue := [] }).exposedProps = 0 :=
  ⟨by decide,
   (defer_until_complete 2 1 0 1 0 { queue := [], activeQueue := [] } none
      { state := { prevId := none, startT := 0, bgioProps := 0 },
        qState := { queue := [], activeQueue := [] },
        rafActive := true } (by decide) rfl).1⟩

/-- Witness for C4 at a concrete tick with a zero-duration effect `z`
(`t = endT = 0`) starting at elapsed 0: `z` lands in the rebuilt active
queue and is not among that tick's ends (the pending and active queues are
disjoint). -/
theorem tick_ends_before_starts_witness :
    (⟨"z", 0, 0, 0⟩ : Effect)
        ∈ (tick false 1 0 0 0
            { queue := [⟨"z", 0, 0, 0⟩], activeQueue := [⟨"w", 1, 0, 0⟩] }).qs.activeQueue ∧
    (⟨"z", 0, 0, 0⟩ : Effect)
        ∉ (tick false 1 0 0 0
            { queue := [⟨"z", 0, 0, 0⟩], activeQueue := [⟨"w", 1, 0, 0⟩] }).justEnded :=
  ⟨(tick_ends_before_starts false 1 0 0 0
      { queue := [⟨"z", 0, 0, 0⟩], activeQueue := [⟨"w", 1, 0, 0⟩] }).2.1
      ⟨"z", 0, 0, 0⟩ (by decide),
   (tick_ends_before_starts false 1 0 0 0
      { queue := [⟨"z", 0, 0, 0⟩], activeQueue := [⟨"w", 1, 0, 0⟩] }).2.2.2.2
      (by
        intro a ha hb
        rw [List.mem_singleton] at ha hb
        subst ha
        exact absurd hb (by decide))
      ⟨"z", 0, 0, 0⟩ (by decide)⟩

/-- Witness for C5 on a two-effect batch run through ticks at elapsed
0, 1, 5: the first effect is started at most once. -/
theorem no_double_fire_witness :
    ((runTicks { queue := [⟨"a", 1, 0, 2⟩, ⟨"b", 2, 2, 3⟩], activeQueue := [] }
        [0, 1, 5]).2.1).count ⟨"a", 1, 0, 2⟩ ≤ 1 :=
  (no_double_fire [⟨"a", 1, 0, 2⟩, ⟨"b", 2, 2, 3⟩] ⟨"a", 1, 0, 2⟩ [0, 1, 5] (by decide)).1

/-- Witness for C7: an observation with no effects capability leaves the
queue cell untouched. -/
theorem same_batch_no_change_witness :
    (handleUpdate false 0 3 none
        { state := { prevId := some "b1", startT := 2, bgioProps := 0 },
          qState := { queue := [⟨"a", 1, 0, 2⟩], activeQueue := [] },
          rafActive := true }).1.qState
      = ({ state := { prevId := some "b1", startT := 2, bgioProps := 0 },
           qState := { queue := [⟨"a", 1, 0, 2⟩], activeQueue := [] },
           rafActive := true } : ProviderState).qState :=
  (same_batch_no_change false 0 3 none
    { state := { prevId := some "b1", startT := 2, bgioProps := 0 },
      qState := { queue := [⟨"a", 1, 0, 2⟩], activeQueue := [] },
      rafActive := true } (Or.inl rfl)).1

/-- Witness for C8: an idle tick (nothing starts, nothing ends) leaves the
queue cell untouched. -/
theorem tick_publish_iff_witness :
    (tick false 2 1 0 0 { queue := [], activeQueue := [] }).qs
      = { queue := [], activeQueue := [] } :=
  (tick_publish_iff false 2 1 0 0 { queue := [], activeQueue := [] }).2 (by decide)

/-- Witness for C9 at the concrete start notification of effect "a": its
envelope carries payload 5 and the emission-time snapshot 1. -/
theorem envelope_carries_snapshot_witness :
    (emitEvent Chan.startCh ⟨"a", 5, 0, 3⟩ 1).envelope.boardProps = 1 ∧
    ∃ x, (x ∈ ([] : Queue) ∨ x ∈ ([⟨"a", 5, 0, 3⟩] : Queue)) ∧
      (emitEvent Chan.startCh ⟨"a", 5, 0, 3⟩ 1).type = x.type ∧
      (emitEvent Chan.startCh ⟨"a", 5, 0, 3⟩ 1).envelope.payload = x.payload :=
  (envelope_carries_snapshot true 2 1 0 1 0 { queue := [⟨"a", 5, 0, 3⟩], activeQueue := [] }
      none
      { state := { prevId := none, startT := 0, bgioProps := 0 },
        qState := { queue := [], activeQueue := [] },
        rafActive := false }).1
    (emitEvent Chan.startCh ⟨"a", 5, 0, 3⟩ 1) (by decide)

/-- Witness for C10: a stopping tick at elapsed 2 with duration 1 reports
`stopped`, and with the driver inactive a further tick step is a no-op. -/
theorem stopped_effects_linger_witness :
    sysRun 1 false
        { boardProps := 0, effects := none,
          ps := { state := { prevId := none, startT := 0, bgioProps := 0 },
                  qState := { queue := [], activeQueue := [⟨"a", 1, 0, 9⟩] },
                  rafActive := false } }
        [Action.tickAt 9]
      = ({ boardProps := 0, effects := none,
           ps := { state := { prevId := none, startT := 0, bgioProps := 0 },
                   qState := { queue := [], activeQueue := [⟨"a", 1, 0, 9⟩] },
                   rafActive := false } }, []) :=
  (stopped_effects_linger false 1 2 0 0 0 { queue := [], activeQueue := [⟨"a", 1, 0, 9⟩] } 1
    { boardProps := 0, effects := none,
      ps := { state := { prevId := none, startT := 0, bgioProps := 0 },
              qState := { queue := [], activeQueue := [⟨"a", 1, 0, 9⟩] },
              rafActive := false } }
    [Action.tickAt 9] ⟨"b2", [], 1⟩
    { state := { prevId := some "b1", startT := 0, bgioProps := 0 },
      qState := { queue := [], activeQueue := [] },
      rafActive := true }
    (by decide) rfl
    (fun a ha => by rw [List.mem_singleton] at ha; exact ⟨9, ha⟩)
    (by decide)).2.2.1

end BgioEffects
